import Mathlib

/-!
Verification of the time-series feature/sequence pipeline of the
S&P 500 GRU prediction repository.

The JavaScript sources are shallowly embedded over the rationals:
JS numbers become `ℚ`, JS arrays become `List`, and the two
transcendental primitives `Math.log` and `Math.sqrt` are passed in as
explicit function parameters (`mlog`, `msqrt`), since none of the
verified properties depend on their values.  JS out-of-range array
reads are modelled with `List.getD`.  All arrays built by the embedded
code are number-filled (the source pre-fills them with `fill(0)` /
`fill(50)`), so on the positive-price inputs used below the JS
`isNaN`/`undefined` definedness checks reduce to index-in-range
checks, which is how they are modelled.
-/

/-- `calculateReturns` from src/gru.js lines 41-47: log returns,
entry 0 stays at the `fill(0)` default. -/
def calculateReturns (mlog : ℚ → ℚ) (prices : List ℚ) : List ℚ :=
  (List.range prices.length).map (fun i =>
    if i = 0 then 0 else mlog (prices.getD i 0 / prices.getD (i - 1) 0))

/-- The 5-day forward return target from src/gru.js lines 56-59:
`SPX_ret_5d_fwd[i] = ln(SPX[i+5]/SPX[i])` for `i < len - 5`, and the
`fill(0)` default of `0` for the last five indices. -/
def fwdReturn5 (mlog : ℚ → ℚ) (prices : List ℚ) : List ℚ :=
  (List.range prices.length).map (fun i =>
    if i < prices.length - 5 then mlog (prices.getD (i + 5) 0 / prices.getD i 0) else 0)

/-- `rollingStd` from src/gru.js lines 62-71: population std of the
trailing `window` returns for `i ≥ window`, `fill(0)` default before. -/
def rollingStd (msqrt : ℚ → ℚ) (returns : List ℚ) (window : ℕ) : List ℚ :=
  (List.range returns.length).map (fun i =>
    if i < window then 0
    else
      let slice := (returns.drop (i - window + 1)).take window
      let mean := slice.sum / (window : ℚ)
      let variance := (slice.map (fun b => (b - mean) ^ 2)).sum / (window : ℚ)
      msqrt variance)

/-- `sma` from src/gru.js lines 77-84: simple moving average for
`i ≥ window - 1`, `fill(0)` default before. -/
def sma (prices : List ℚ) (window : ℕ) : List ℚ :=
  (List.range prices.length).map (fun i =>
    if i < window - 1 then 0
    else ((prices.drop (i + 1 - window)).take window).sum / (window : ℚ))

/-- The 10-day momentum from src/gru.js lines 90-93. -/
def momentum10 (prices : List ℚ) : List ℚ :=
  (List.range prices.length).map (fun i =>
    if i < 10 then 0 else prices.getD i 0 / prices.getD (i - 10) 0 - 1)

/-- Sum of the positive changes over the trailing `window` changes
ending at `i` (the `gains` accumulator of `computeRSI`,
src/gru.js lines 99-109). -/
def rsiGains (prices : List ℚ) (window i : ℕ) : ℚ :=
  ((List.range window).map (fun k =>
    let j := i - window + 1 + k
    let change := prices.getD j 0 - prices.getD (j - 1) 0
    if 0 < change then change else 0)).sum

/-- Sum of the negated non-positive changes over the trailing `window`
changes ending at `i` (the `losses` accumulator of `computeRSI`,
src/gru.js lines 99-109). -/
def rsiLosses (prices : List ℚ) (window i : ℕ) : ℚ :=
  ((List.range window).map (fun k =>
    let j := i - window + 1 + k
    let change := prices.getD j 0 - prices.getD (j - 1) 0
    if 0 < change then 0 else -change)).sum

/-- The RSI value at one index (the loop body of `computeRSI`,
src/gru.js lines 98-120): the `fill(50)` neutral default before the
window fills, `100` when the average loss is zero, otherwise
`100 - 100/(1 + RS)` with `RS = avgGain/avgLoss`. -/
def rsiAt (prices : List ℚ) (window i : ℕ) : ℚ :=
  if i < window then 50
  else
    let avgGain := rsiGains prices window i / (window : ℚ)
    let avgLoss := rsiLosses prices window i / (window : ℚ)
    if avgLoss = 0 then 100
    else 100 - 100 / (1 + avgGain / avgLoss)

/-- `computeRSI` from src/gru.js lines 96-122. -/
def computeRSI (prices : List ℚ) (window : ℕ) : List ℚ :=
  (List.range prices.length).map (rsiAt prices window)

-- Generic helper lemmas about list indexing used throughout.

theorem getD_map_range {α : Type} (f : ℕ → α) (n i : ℕ) (d : α) (h : i < n) :
    ((List.range n).map f).getD i d = f i := by
  rw [List.getD_eq_getElem?_getD, List.getElem?_map, List.getElem?_range h]
  rfl

theorem length_map_range {α : Type} (f : ℕ → α) (n : ℕ) :
    ((List.range n).map f).length = n := by simp

theorem getD_drop_take {α : Type} (l : List α) (i L j : ℕ) (d : α)
    (hj : j < L) :
    ((l.drop i).take L).getD j d = l.getD (i + j) d := by
  rw [List.getD_eq_getElem?_getD, List.getD_eq_getElem?_getD,
    List.getElem?_take_of_lt hj, List.getElem?_drop]

theorem take_take_drop_cover {α : Type} (l : List α) (a b : ℕ) :
    l.take a ++ ((l.drop a).take b ++ l.drop (a + b)) = l := by
  have h1 : l.drop (a + b) = (l.drop a).drop b := by
    rw [List.drop_drop, Nat.add_comm]
  rw [h1, List.take_append_drop, List.take_append_drop]

/-- The raw input record of `createFeatures` (src/gru.js lines 22-38):
the six required numeric columns plus the date index.  The JS
missing-column check (lines 23-27) is made moot by the record type. -/
structure RawData where
  Date : List ℕ
  SPX : List ℚ
  VIX : List ℚ
  SPY : List ℚ
  TNX : List ℚ
  DXY : List ℚ
  SPY_Volume : List ℚ

/-- Per-column sums used by `standardizeFeatures`. -/
def colSum (X : List (List ℚ)) (j : ℕ) : ℚ :=
  (X.map (fun row => row.getD j 0)).sum

/-- The per-feature means computed by `standardizeFeatures`
(src/gru.js lines 182-188). -/
def featureMeans (X : List (List ℚ)) : List ℚ :=
  (List.range (X.headD []).length).map (fun j => colSum X j / (X.length : ℚ))

/-- The per-feature standard deviations computed by
`standardizeFeatures` (src/gru.js lines 190-199), with the
division-by-zero clamp `std === 0 ? 1 : std`. -/
def featureStds (msqrt : ℚ → ℚ) (X : List (List ℚ)) : List ℚ :=
  ((List.range (X.headD []).length).map (fun j =>
    msqrt ((X.map (fun row => (row.getD j 0 - (featureMeans X).getD j 0) ^ 2)).sum
      / (X.length : ℚ)))).map (fun std => if std = 0 then 1 else std)

/-- `standardizeFeatures` from src/gru.js lines 175-207: z-score each
column using the fitted means and clamped stds; an empty matrix is
returned unchanged. -/
def standardizeFeatures (msqrt : ℚ → ℚ) (X : List (List ℚ)) : List (List ℚ) :=
  if X.length = 0 then X
  else
    X.map (fun row => row.mapIdx (fun idx val =>
      (val - (featureMeans X).getD idx 0) / (featureStds msqrt X).getD idx 0))

/-- The result record of `createFeatures` (src/gru.js lines 165-171);
`originalData` and `featureNames` carry no verified content and are
omitted. -/
structure FeatureResult where
  X : List (List ℚ)
  y : List ℚ
  dates : List ℕ

/-- The twelve feature columns of `createFeatures`, in the order of
`featureCols` (src/gru.js lines 127-133), built as in lines 49-124:
five log-return columns, the raw volume column, two rolling
volatilities of the SPX returns, two SMAs, the 10-day momentum and the
14-day RSI. -/
def featureArrays (mlog msqrt : ℚ → ℚ) (rd : RawData) : List (List ℚ) :=
  [calculateReturns mlog rd.SPX, calculateReturns mlog rd.VIX,
   calculateReturns mlog rd.SPY, calculateReturns mlog rd.TNX,
   calculateReturns mlog rd.DXY, rd.SPY_Volume,
   rollingStd msqrt (calculateReturns mlog rd.SPX) 21,
   rollingStd msqrt (calculateReturns mlog rd.SPX) 63,
   sma rd.SPX 10, sma rd.SPX 50, momentum10 rd.SPX, computeRSI rd.SPX 14]

/-- The target column `SPX_ret_5d_fwd` of `createFeatures`
(src/gru.js line 135). -/
def targetArray (mlog : ℚ → ℚ) (rd : RawData) : List ℚ :=
  fwdReturn5 mlog rd.SPX

/-- The per-row check of the start-index scan of `createFeatures`
(src/gru.js lines 144-147): for each feature column and the target,
`df[col][i] !== undefined && df[col][i] !== null && !isNaN(df[col][i])`.
In this rational embedding every built array slot holds a number, so
the check holds exactly when the slot exists (`i < arr.length`). -/
def definedAt (mlog msqrt : ℚ → ℚ) (rd : RawData) (i : ℕ) : Bool :=
  ((featureArrays mlog msqrt rd).all (fun arr => decide (i < arr.length)))
    && decide (i < (targetArray mlog rd).length)

/-- The `startIdx` computed by `createFeatures` (src/gru.js lines
142-153): the first index passing `definedAt`, or the initial value
`0` when the loop finds none (the JS loop breaks on the first hit and
otherwise leaves `startIdx = 0`). -/
def startIdx (mlog msqrt : ℚ → ℚ) (rd : RawData) : ℕ :=
  (((List.range rd.Date.length).find? (definedAt mlog msqrt rd)).getD 0)

/-- `createFeatures` from src/gru.js lines 18-172: build the feature
and target columns, scan for `startIdx`, emit the rows
`startIdx .. Date.length - 1` (lines 156-160), standardize the feature
rows (line 163) and return them with the aligned dates (line 168). -/
def createFeatures (mlog msqrt : ℚ → ℚ) (rd : RawData) : FeatureResult :=
  let rowIdxs := (List.range rd.Date.length).drop (startIdx mlog msqrt rd)
  let X_raw := rowIdxs.map (fun i =>
    (featureArrays mlog msqrt rd).map (fun arr => arr.getD i 0))
  let y_raw := rowIdxs.map (fun i => (targetArray mlog rd).getD i 0)
  { X := standardizeFeatures msqrt X_raw
    y := y_raw
    dates := rd.Date.drop (startIdx mlog msqrt rd) }

/-- `createSequences` from src/gru.js lines 210-223: for each
`i < X.length - lookback` (a JS loop that never runs when the bound is
non-positive, matching truncated `ℕ` subtraction), push
`X.slice(i, i + lookback)` and `y[i + lookback]`. -/
def createSequences (X : List (List ℚ)) (y : List ℚ) (lookback : ℕ) :
    List (List (List ℚ)) × List ℚ :=
  ((List.range (X.length - lookback)).map (fun i => (X.drop i).take lookback),
   (List.range (X.length - lookback)).map (fun i => y.getD (i + lookback) 0))

/-- The chronological slicing of `prepareData` (src/gru.js lines
359-368), applied there to `sequences.X` and `sequences.y` with the
same cut points: `trainEnd = Math.floor(n * trainRatio)`,
`valEnd = trainEnd + Math.floor(n * valRatio)`, then
`slice(0, trainEnd)` / `slice(trainEnd, valEnd)` / `slice(valEnd)`.
Modelled for non-negative ratios (negative JS slice arguments, which
count from the end, do not arise). -/
def prepareDataSplit {α : Type} (xs : List α) (trainRatio valRatio : ℚ) :
    List α × List α × List α :=
  let n := xs.length
  let trainEnd := (Int.floor ((n : ℚ) * trainRatio)).toNat
  let valWidth := (Int.floor ((n : ℚ) * valRatio)).toNat
  (xs.take trainEnd, (xs.drop trainEnd).take valWidth, xs.drop (trainEnd + valWidth))

/-- `prepareData` from src/gru.js lines 352-377: build sequences, then
split both the sequence list and the label list at the shared cut
points (their lengths coincide, so the computed cut points do too). -/
def prepareData (X : List (List ℚ)) (y : List ℚ) (lookback : ℕ)
    (trainRatio valRatio : ℚ) :
    (List (List (List ℚ)) × List (List (List ℚ)) × List (List (List ℚ)))
      × (List ℚ × List ℚ × List ℚ) :=
  let sequences := createSequences X y lookback
  (prepareDataSplit sequences.1 trainRatio valRatio,
   prepareDataSplit sequences.2 trainRatio valRatio)

/-- The training history of src/gru.js lines 10-13 / 277-281: the
per-epoch loss and validation-loss records.  The training callback
(lines 294-300) appends to both lists in lockstep, so histories the
program produces always have `loss.length = valLoss.length`
(spec section 3 likewise records per-epoch pairs). -/
structure TrainingHistory where
  loss : List ℚ
  valLoss : List ℚ

/-- `calculatePredictionConfidence` from src/gru.js lines 396-411. -/
def calculatePredictionConfidence (msqrt : ℚ → ℚ) (hist : TrainingHistory)
    (prediction : ℚ) : ℚ :=
  if hist.loss.length = 0 then 1 / 2
  else
    let avgValLoss := hist.valLoss.sum / (hist.valLoss.length : ℚ)
    let lossConfidence := max 0 (1 - msqrt avgValLoss * 10)
    let magnitudeConfidence := max 0 (1 - |prediction| * 2)
    min (19 / 20) (max (1 / 10) ((lossConfidence + magnitudeConfidence) / 2))

/-- `DataLoader.normalizeReturns` from src/unnamed/part_001 lines
501-510: z-score with the stored statistics, `std === 0` clamped
to 1. -/
def normalizeReturns (mean std : ℚ) (returns : List ℚ) : List ℚ :=
  let safeStd := if std = 0 then 1 else std
  returns.map (fun r => (r - mean) / safeStd)

/-- `DataLoader.denormalizeReturns` from src/unnamed/part_001 lines
517-523: the inverse map with the same zero-std clamp. -/
def denormalizeReturns (mean std : ℚ) (normalized : List ℚ) : List ℚ :=
  let safeStd := if std = 0 then 1 else std
  normalized.map (fun r => r * safeStd + mean)

/-- The rolling window of `GRUModel.predictNextDays`
(src/unnamed/part_001 lines 798-831) before step `k`: the copy of the
caller's sequence at step 0, and thereafter the previous window with
its oldest element shifted out and the raw normalized prediction
pushed (`currentSequence.shift(); currentSequence.push(predValue)`,
lines 822-823). -/
def windowAt (model : List ℚ → ℚ) (lastSequence : List ℚ) : ℕ → List ℚ
  | 0 => lastSequence
  | k + 1 => (windowAt model lastSequence k).tail ++ [model (windowAt model lastSequence k)]

/-- `GRUModel.predictNextDays` from src/unnamed/part_001 lines
798-831: `nDays` recursive steps; each step reports the denormalized
value `predValue * dataStats.std + dataStats.mean` (line 818, the
stored `dataStats.std` already holds the zero-clamped `safeStd` set by
`normalizeData`, line 724) while feeding the raw `predValue` back into
the window.  The external model is an explicit function parameter.  -/
def predictNextDaysGo (model : List ℚ → ℚ) (mean std : ℚ) :
    List ℚ → ℕ → List ℚ
  | _, 0 => []
  | cur, n + 1 =>
    (model cur * std + mean) :: predictNextDaysGo model mean std (cur.tail ++ [model cur]) n

/-- The entry point of `predictNextDays`: the loop starts on the copy
`[...lastSequence]` (line 804) of the caller's array, which is
therefore never written to (in this pure embedding the copy is the
value itself). -/
def predictNextDays (model : List ℚ → ℚ) (mean std : ℚ)
    (lastSequence : List ℚ) (nDays : ℕ) : List ℚ :=
  predictNextDaysGo model mean std lastSequence nDays

/-- C4: for every fitted standardization parameters (any stored mean
and standard deviation, a zero standard deviation being replaced by 1)
and every input, applying the inverse transform after the forward
transform returns the input exactly (the rational embedding is exact,
hence within any floating tolerance). -/
theorem c4_normalize_roundtrip (mean std : ℚ) (returns : List ℚ) :
    denormalizeReturns mean std (normalizeReturns mean std returns) = returns := by
  simp only [normalizeReturns, denormalizeReturns, List.map_map]
  have hs : (if std = 0 then (1 : ℚ) else std) ≠ 0 := by
    split
    · exact one_ne_zero
    · assumption
  have hcomp : ((fun r : ℚ => r * (if std = 0 then (1 : ℚ) else std) + mean) ∘
      (fun r : ℚ => (r - mean) / (if std = 0 then (1 : ℚ) else std))) = id := by
    funext r
    simp only [Function.comp_apply, id_eq]
    rw [div_mul_cancel₀ _ hs]
    ring
  rw [hcomp, List.map_id]

/-- C2: for every feature-row list `X`, target list `y` and lookback
`L < X.length`, `createSequences` emits exactly `X.length - L`
sequences; the `i`-th sequence consists of the rows `[i, i+L)` of `X`
and is paired with target `y[i+L]`. -/
theorem c2_createSequences_alignment (X : List (List ℚ)) (y : List ℚ)
    (lookback : ℕ) (hL : lookback < X.length) :
    (createSequences X y lookback).1.length = X.length - lookback ∧
    (createSequences X y lookback).2.length = X.length - lookback ∧
    ∀ i, i < X.length - lookback →
      (∀ j, j < lookback →
        ((createSequences X y lookback).1.getD i []).getD j [] = X.getD (i + j) []) ∧
      (createSequences X y lookback).2.getD i 0 = y.getD (i + lookback) 0 := by
  refine ⟨by simp [createSequences], by simp [createSequences], ?_⟩
  intro i hi
  constructor
  · intro j hj
    show (((List.range (X.length - lookback)).map
        (fun i => (X.drop i).take lookback)).getD i []).getD j [] = _
    rw [getD_map_range _ _ _ _ hi, getD_drop_take X i lookback j [] hj]
  · show ((List.range (X.length - lookback)).map
        (fun i => y.getD (i + lookback) 0)).getD i 0 = _
    rw [getD_map_range _ _ _ _ hi]

theorem c2_createSequences_alignment_witness :
    1 < ([[(1 : ℚ)], [2], [3]] : List (List ℚ)).length ∧
    ((createSequences [[(1 : ℚ)], [2], [3]] [10, 20, 30] 1).1.length
        = ([[(1 : ℚ)], [2], [3]] : List (List ℚ)).length - 1 ∧
      (createSequences [[(1 : ℚ)], [2], [3]] [10, 20, 30] 1).2.length
        = ([[(1 : ℚ)], [2], [3]] : List (List ℚ)).length - 1 ∧
      ∀ i, i < ([[(1 : ℚ)], [2], [3]] : List (List ℚ)).length - 1 →
        (∀ j, j < 1 →
          ((createSequences [[(1 : ℚ)], [2], [3]] [10, 20, 30] 1).1.getD i []).getD j []
            = ([[(1 : ℚ)], [2], [3]] : List (List ℚ)).getD (i + j) []) ∧
        (createSequences [[(1 : ℚ)], [2], [3]] [10, 20, 30] 1).2.getD i 0
          = ([10, 20, 30] : List ℚ).getD (i + 1) 0) :=
  ⟨by decide, c2_createSequences_alignment [[(1 : ℚ)], [2], [3]] [10, 20, 30] 1 (by decide)⟩

/-- C7 counterexample: with `lookback = 3` and only two feature rows,
`createSequences` raises nothing and returns the empty sequence set
(the JS loop bound `X.length - lookback` is non-positive, and
src/gru.js contains no `InsufficientDataError` or any other throw in
`createSequences`). -/
theorem c7_counterexample :
    createSequences [[(1 : ℚ)], [2]] [1, 2] 3 = ([], []) := by decide

/-- C7 amended: for every input with `lookback ≥ len(featureRows)`,
`createSequences` returns the empty sequence set rather than failing;
the analogous length guard exists only in `DataLoader.prepareSequences`
(src/unnamed/part_001 lines 438-440), not in the gru.js sequence
builder. -/
theorem c7_amended_empty (X : List (List ℚ)) (y : List ℚ) (lookback : ℕ)
    (h : X.length ≤ lookback) :
    createSequences X y lookback = ([], []) := by
  unfold createSequences
  rw [Nat.sub_eq_zero_of_le h]
  simp

theorem c7_amended_empty_witness :
    ([[(1 : ℚ)]] : List (List ℚ)).length ≤ 5 ∧
    createSequences [[(1 : ℚ)]] [1] 5 = ([], []) :=
  ⟨by decide, c7_amended_empty [[(1 : ℚ)]] [1] 5 (by decide)⟩

/-- C3: for every sequence collection and non-negative ratios with
`trainRatio + valRatio ≤ 1`, the chronological split of `prepareData`
takes the first `⌊n*trainRatio⌋` sequences as train, the next
`⌊n*valRatio⌋` as validation and the remainder as test: the three
parts are the literal contiguous slices (no reordering), have exactly
those lengths, and concatenate back to the whole collection (disjoint,
order-preserving, no gaps). -/
theorem c3_prepareData_split {α : Type} (xs : List α) (trainRatio valRatio : ℚ)
    (h1 : 0 ≤ trainRatio) (h2 : 0 ≤ valRatio) (h3 : trainRatio + valRatio ≤ 1) :
    (prepareDataSplit xs trainRatio valRatio).1 =
        xs.take (Int.floor ((xs.length : ℚ) * trainRatio)).toNat ∧
    (prepareDataSplit xs trainRatio valRatio).2.1 =
        (xs.drop (Int.floor ((xs.length : ℚ) * trainRatio)).toNat).take
          (Int.floor ((xs.length : ℚ) * valRatio)).toNat ∧
    (prepareDataSplit xs trainRatio valRatio).2.2 =
        xs.drop ((Int.floor ((xs.length : ℚ) * trainRatio)).toNat
          + (Int.floor ((xs.length : ℚ) * valRatio)).toNat) ∧
    (prepareDataSplit xs trainRatio valRatio).1.length =
        (Int.floor ((xs.length : ℚ) * trainRatio)).toNat ∧
    (prepareDataSplit xs trainRatio valRatio).2.1.length =
        (Int.floor ((xs.length : ℚ) * valRatio)).toNat ∧
    (prepareDataSplit xs trainRatio valRatio).2.2.length =
        xs.length - (Int.floor ((xs.length : ℚ) * trainRatio)).toNat
          - (Int.floor ((xs.length : ℚ) * valRatio)).toNat ∧
    (prepareDataSplit xs trainRatio valRatio).1 ++
        ((prepareDataSplit xs trainRatio valRatio).2.1 ++
          (prepareDataSplit xs trainRatio valRatio).2.2) = xs := by
  have ha0 : (0 : ℤ) ≤ Int.floor ((xs.length : ℚ) * trainRatio) :=
    Int.floor_nonneg.mpr (mul_nonneg (by positivity) h1)
  have hb0 : (0 : ℤ) ≤ Int.floor ((xs.length : ℚ) * valRatio) :=
    Int.floor_nonneg.mpr (mul_nonneg (by positivity) h2)
  have hfl : Int.floor ((xs.length : ℚ) * trainRatio)
      + Int.floor ((xs.length : ℚ) * valRatio) ≤ (xs.length : ℤ) := by
    have h4 : ((Int.floor ((xs.length : ℚ) * trainRatio)
        + Int.floor ((xs.length : ℚ) * valRatio) : ℤ) : ℚ)
        ≤ (xs.length : ℚ) * trainRatio + (xs.length : ℚ) * valRatio := by
      push_cast
      exact add_le_add (Int.floor_le _) (Int.floor_le _)
    have h5 : (xs.length : ℚ) * trainRatio + (xs.length : ℚ) * valRatio
        ≤ (xs.length : ℚ) := by
      rw [← mul_add]
      calc (xs.length : ℚ) * (trainRatio + valRatio)
          ≤ (xs.length : ℚ) * 1 := by
            exact mul_le_mul_of_nonneg_left h3 (by positivity)
        _ = (xs.length : ℚ) := mul_one _
    exact_mod_cast le_trans h4 h5
  have hab : (Int.floor ((xs.length : ℚ) * trainRatio)).toNat
      + (Int.floor ((xs.length : ℚ) * valRatio)).toNat ≤ xs.length := by
    omega
  refine ⟨rfl, rfl, rfl, ?_, ?_, ?_, take_take_drop_cover xs _ _⟩
  · show (xs.take _).length = _
    rw [List.length_take]
    omega
  · show ((xs.drop _).take _).length = _
    rw [List.length_take, List.length_drop]
    omega
  · show (xs.drop _).length = _
    rw [List.length_drop]
    omega

theorem c3_prepareData_split_witness :
    ((0 : ℚ) ≤ 7/10 ∧ (0 : ℚ) ≤ 3/20 ∧ (7/10 : ℚ) + 3/20 ≤ 1) ∧
    (prepareDataSplit (List.range 10) ((7 : ℚ)/10) (3/20)).1 = [0, 1, 2, 3, 4, 5, 6] ∧
    (prepareDataSplit (List.range 10) ((7 : ℚ)/10) (3/20)).2.1 = [7] ∧
    (prepareDataSplit (List.range 10) ((7 : ℚ)/10) (3/20)).2.2 = [8, 9] ∧
    (prepareDataSplit (List.range 10) ((7 : ℚ)/10) (3/20)).1.length = 7 ∧
    (prepareDataSplit (List.range 10) ((7 : ℚ)/10) (3/20)).2.1.length = 1 ∧
    (prepareDataSplit (List.range 10) ((7 : ℚ)/10) (3/20)).2.2.length = 2 := by
  have h := c3_prepareData_split (List.range 10) ((7 : ℚ)/10) (3/20)
    (by norm_num) (by norm_num) (by norm_num)
  have ht : (Int.floor (((List.range 10).length : ℚ) * (7/10))).toNat = 7 := by
    simp only [List.length_range]
    norm_num
    rfl
  have hv : (Int.floor (((List.range 10).length : ℚ) * (3/20))).toNat = 1 := by
    simp only [List.length_range]
    norm_num
  refine ⟨⟨by norm_num, by norm_num, by norm_num⟩, ?_, ?_, ?_, ?_, ?_, ?_⟩
  · rw [h.1, ht]
    decide
  · rw [h.2.1, ht, hv]
    decide
  · rw [h.2.2.1, ht, hv]
    decide
  · rw [h.2.2.2.1, ht]
  · rw [h.2.2.2.2.1, hv]
  · rw [h.2.2.2.2.2.1, ht, hv]
    decide

/-- C8 counterexample: with ten sequences and ratios `0.8` and `0.5`
(sum `1.3 > 1`), the split of `prepareData` raises nothing and
produces a partition: 8 train, the 2 remaining as validation, and an
empty test slice (src/gru.js lines 352-377 contain no ratio check and
no throw). -/
theorem c8_counterexample :
    (1 : ℚ) < 4/5 + 1/2 ∧
    prepareDataSplit (List.range 10) ((4 : ℚ)/5) (1/2) =
      ([0, 1, 2, 3, 4, 5, 6, 7], [8, 9], []) := by
  constructor
  · norm_num
  · have ht : (Int.floor (((List.range 10).length : ℚ) * (4/5))).toNat = 8 := by
      simp only [List.length_range]
      norm_num
      rfl
    have hv : (Int.floor (((List.range 10).length : ℚ) * (1/2))).toNat = 5 := by
      simp only [List.length_range]
      norm_num
      rfl
    show ((List.range 10).take _, ((List.range 10).drop _).take _,
      (List.range 10).drop (_ + _)) = _
    rw [ht, hv]
    decide

/-- C8 amended: `prepareData` performs no ratio validation.  For every
non-negative ratio pair, including pairs with
`trainRatio + valRatio > 1`, it still returns the three chronological
slices: the JS `slice` clamps, so the slices have the clamped lengths
`min ⌊n*t⌋ n`, `min ⌊n*v⌋ (n - ⌊n*t⌋)` and `n - ⌊n*t⌋ - ⌊n*v⌋`
(test possibly empty) and always concatenate back to the full
collection. -/
theorem c8_amended_no_validation {α : Type} (xs : List α)
    (trainRatio valRatio : ℚ) (h1 : 0 ≤ trainRatio) (h2 : 0 ≤ valRatio)
    (h3 : 1 < trainRatio + valRatio) :
    (prepareDataSplit xs trainRatio valRatio).1.length =
        min (Int.floor ((xs.length : ℚ) * trainRatio)).toNat xs.length ∧
    (prepareDataSplit xs trainRatio valRatio).2.1.length =
        min (Int.floor ((xs.length : ℚ) * valRatio)).toNat
          (xs.length - (Int.floor ((xs.length : ℚ) * trainRatio)).toNat) ∧
    (prepareDataSplit xs trainRatio valRatio).2.2.length =
        xs.length - (Int.floor ((xs.length : ℚ) * trainRatio)).toNat
          - (Int.floor ((xs.length : ℚ) * valRatio)).toNat ∧
    (prepareDataSplit xs trainRatio valRatio).1 ++
        ((prepareDataSplit xs trainRatio valRatio).2.1 ++
          (prepareDataSplit xs trainRatio valRatio).2.2) = xs := by
  refine ⟨?_, ?_, ?_, take_take_drop_cover xs _ _⟩
  · show (xs.take _).length = _
    rw [List.length_take]
  · show ((xs.drop _).take _).length = _
    rw [List.length_take, List.length_drop]
  · show (xs.drop _).length = _
    rw [List.length_drop]
    omega

theorem c8_amended_no_validation_witness :
    ((0 : ℚ) ≤ 4/5 ∧ (0 : ℚ) ≤ 1/2 ∧ (1 : ℚ) < 4/5 + 1/2) ∧
    ((prepareDataSplit (List.range 10) ((4 : ℚ)/5) (1/2)).1.length =
        min (Int.floor (((List.range 10).length : ℚ) * (4/5))).toNat
          (List.range 10).length ∧
      (prepareDataSplit (List.range 10) ((4 : ℚ)/5) (1/2)).2.1.length =
        min (Int.floor (((List.range 10).length : ℚ) * (1/2))).toNat
          ((List.range 10).length
            - (Int.floor (((List.range 10).length : ℚ) * (4/5))).toNat) ∧
      (prepareDataSplit (List.range 10) ((4 : ℚ)/5) (1/2)).2.2.length =
        (List.range 10).length
          - (Int.floor (((List.range 10).length : ℚ) * (4/5))).toNat
          - (Int.floor (((List.range 10).length : ℚ) * (1/2))).toNat ∧
      (prepareDataSplit (List.range 10) ((4 : ℚ)/5) (1/2)).1 ++
        ((prepareDataSplit (List.range 10) ((4 : ℚ)/5) (1/2)).2.1 ++
          (prepareDataSplit (List.range 10) ((4 : ℚ)/5) (1/2)).2.2) = List.range 10) :=
  ⟨⟨by norm_num, by norm_num, by norm_num⟩,
    c8_amended_no_validation (List.range 10) ((4 : ℚ)/5) (1/2)
      (by norm_num) (by norm_num) (by norm_num)⟩

theorem windowAt_shift (model : List ℚ → ℚ) (cur : List ℚ) (k : ℕ) :
    windowAt model (cur.tail ++ [model cur]) k = windowAt model cur (k + 1) := by
  induction k with
  | zero => rfl
  | succ k ih => simp only [windowAt, ih]

theorem predictNextDaysGo_getD (model : List ℚ → ℚ) (mean std : ℚ) :
    ∀ (n k : ℕ) (cur : List ℚ), k < n →
      (predictNextDaysGo model mean std cur n).getD k 0 =
        model (windowAt model cur k) * std + mean := by
  intro n
  induction n with
  | zero => intro k cur hk; omega
  | succ n ih =>
    intro k cur hk
    cases k with
    | zero => rfl
    | succ k =>
      show (predictNextDaysGo model mean std (cur.tail ++ [model cur]) n).getD k 0 = _
      rw [ih k (cur.tail ++ [model cur]) (by omega), windowAt_shift]

/-- C5: in recursive multi-day forecasting, for every model function,
stored statistics, initial window, horizon and step `k < nDays`, the
`k`-th reported value is the independently denormalized prediction
`model(windowₖ) * std + mean`, while the window evolves by shifting
out its oldest element and appending the raw normalized prediction
`model(windowₖ)`. -/
theorem c5_predict_denormalized_feedback_raw (model : List ℚ → ℚ)
    (mean std : ℚ) (lastSequence : List ℚ) (nDays k : ℕ) (hk : k < nDays) :
    (predictNextDays model mean std lastSequence nDays).getD k 0 =
      model (windowAt model lastSequence k) * std + mean ∧
    windowAt model lastSequence (k + 1) =
      (windowAt model lastSequence k).tail
        ++ [model (windowAt model lastSequence k)] :=
  ⟨predictNextDaysGo_getD model mean std nDays k lastSequence hk, rfl⟩

theorem c5_predict_denormalized_feedback_raw_witness :
    1 < 2 ∧
    ((predictNextDays (fun l => l.sum) 1 2 [3] 2).getD 1 0 =
      (fun l : List ℚ => l.sum) (windowAt (fun l => l.sum) [3] 1) * 2 + 1 ∧
    windowAt (fun l : List ℚ => l.sum) [3] 2 =
      (windowAt (fun l : List ℚ => l.sum) [3] 1).tail
        ++ [(fun l : List ℚ => l.sum) (windowAt (fun l => l.sum) [3] 1)]) :=
  ⟨by norm_num,
    c5_predict_denormalized_feedback_raw (fun l => l.sum) 1 2 [3] 2 1 (by norm_num)⟩

/-- C10 counterexample: the working-window length is not preserved for
every initial window: starting from the empty window, the window
before the second model invocation has length 1, not 0 (JS
`shift()` on an empty array removes nothing and `push` still
appends). -/
theorem c10_counterexample :
    ¬ (∀ (model : List ℚ → ℚ) (lastSequence : List ℚ) (nDays k : ℕ),
        k < nDays → (windowAt model lastSequence k).length = lastSequence.length) := by
  intro h
  have h1 := h (fun _ => 0) [] 2 1 (by norm_num)
  simp [windowAt] at h1

theorem windowAt_length (model : List ℚ → ℚ) (lastSequence : List ℚ)
    (h : lastSequence ≠ []) :
    ∀ k, (windowAt model lastSequence k).length = lastSequence.length := by
  have h0 : 0 < lastSequence.length := List.length_pos.mpr h
  intro k
  induction k with
  | zero => rfl
  | succ k ih =>
    show ((windowAt model lastSequence k).tail ++ [_]).length = _
    rw [List.length_append, List.length_tail, ih]
    simp
    omega

theorem predictNextDaysGo_length (model : List ℚ → ℚ) (mean std : ℚ) :
    ∀ (n : ℕ) (cur : List ℚ), (predictNextDaysGo model mean std cur n).length = n := by
  intro n
  induction n with
  | zero => intro cur; rfl
  | succ n ih =>
    intro cur
    show (predictNextDaysGo model mean std (cur.tail ++ [model cur]) n).length + 1 = n + 1
    rw [ih]

/-- C10 amended: for every model function, statistics and horizon,
`predictNextDays` returns exactly `nDays` predictions, and for every
nonempty initial window the working window has the initial length
before every model invocation (one element is shifted out for each
prediction appended); the loop operates on the copy
`[...lastSequence]`, so in this pure embedding the caller's list is
untouched.  (For the empty window the length invariant fails: the
window grows to length 1 after the first step, see the
counterexample.) -/
theorem c10_predict_window_invariants (model : List ℚ → ℚ) (mean std : ℚ)
    (lastSequence : List ℚ) (nDays : ℕ) (h : lastSequence ≠ []) :
    (predictNextDays model mean std lastSequence nDays).length = nDays ∧
    ∀ k, k < nDays →
      (windowAt model lastSequence k).length = lastSequence.length :=
  ⟨predictNextDaysGo_length model mean std nDays lastSequence,
    fun k _ => windowAt_length model lastSequence h k⟩

theorem c10_predict_window_invariants_witness :
    ([(5 : ℚ), 7] ≠ []) ∧
    ((predictNextDays (fun l => l.sum) 1 2 [5, 7] 3).length = 3 ∧
      ∀ k, k < 3 →
        (windowAt (fun l : List ℚ => l.sum) [5, 7] k).length =
          ([(5 : ℚ), 7] : List ℚ).length) :=
  ⟨by decide, c10_predict_window_invariants (fun l => l.sum) 1 2 [5, 7] 3 (by decide)⟩

theorem rsiGains_nonneg (prices : List ℚ) (window i : ℕ) :
    0 ≤ rsiGains prices window i := by
  apply List.sum_nonneg
  intro x hx
  obtain ⟨k, _, rfl⟩ := List.mem_map.mp hx
  dsimp only
  split
  · linarith
  · exact le_refl 0

theorem rsiLosses_nonneg (prices : List ℚ) (window i : ℕ) :
    0 ≤ rsiLosses prices window i := by
  apply List.sum_nonneg
  intro x hx
  obtain ⟨k, _, rfl⟩ := List.mem_map.mp hx
  dsimp only
  split
  · exact le_refl 0
  · linarith [not_lt.mp (by assumption :
      ¬ 0 < prices.getD (i - window + 1 + k) 0 - prices.getD (i - window + 1 + k - 1) 0)]

theorem rsiAt_bounds (prices : List ℚ) (window i : ℕ) (hw : 0 < window) :
    0 ≤ rsiAt prices window i ∧ rsiAt prices window i ≤ 100 := by
  unfold rsiAt
  split
  · norm_num
  · dsimp only
    split
    · norm_num
    · have hg := rsiGains_nonneg prices window i
      have hl := rsiLosses_nonneg prices window i
      have hwq : (0 : ℚ) < (window : ℚ) := by exact_mod_cast hw
      have havgL : 0 ≤ rsiLosses prices window i / (window : ℚ) :=
        div_nonneg hl hwq.le
      have havgL2 : 0 < rsiLosses prices window i / (window : ℚ) :=
        lt_of_le_of_ne havgL (Ne.symm (by assumption))
      have havgG : 0 ≤ rsiGains prices window i / (window : ℚ) :=
        div_nonneg hg hwq.le
      have hrs : 0 ≤ (rsiGains prices window i / (window : ℚ))
          / (rsiLosses prices window i / (window : ℚ)) :=
        div_nonneg havgG havgL
      have h1rs : (0 : ℚ) < 1 + (rsiGains prices window i / (window : ℚ))
          / (rsiLosses prices window i / (window : ℚ)) := by linarith
      have hq1 : 100 / (1 + (rsiGains prices window i / (window : ℚ))
          / (rsiLosses prices window i / (window : ℚ))) ≤ 100 := by
        rw [div_le_iff₀ h1rs]
        nlinarith
      have hq0 : 0 < 100 / (1 + (rsiGains prices window i / (window : ℚ))
          / (rsiLosses prices window i / (window : ℚ))) := by positivity
      constructor <;> linarith

/-- C6: for every price series and positive RSI window, at every index
the computed RSI lies in `[0, 100]`; it is exactly `100` whenever the
average loss over the trailing window is zero, and exactly the neutral
`50` at every index before the window fills. -/
theorem c6_rsi_invariants (prices : List ℚ) (window i : ℕ)
    (hw : 0 < window) (hi : i < prices.length) :
    (0 ≤ (computeRSI prices window).getD i 0 ∧
      (computeRSI prices window).getD i 0 ≤ 100) ∧
    (i < window → (computeRSI prices window).getD i 0 = 50) ∧
    (window ≤ i → rsiLosses prices window i / (window : ℚ) = 0 →
      (computeRSI prices window).getD i 0 = 100) := by
  have hval : (computeRSI prices window).getD i 0 = rsiAt prices window i := by
    unfold computeRSI
    exact getD_map_range _ _ _ _ hi
  rw [hval]
  refine ⟨rsiAt_bounds prices window i hw, ?_, ?_⟩
  · intro h
    unfold rsiAt
    rw [if_pos h]
  · intro h hl0
    unfold rsiAt
    rw [if_neg (by omega)]
    simp [hl0]

theorem c6_rsi_invariants_witness :
    (0 < 2 ∧ 2 < ([(1 : ℚ), 2, 3] : List ℚ).length) ∧
    ((0 ≤ (computeRSI [(1 : ℚ), 2, 3] 2).getD 2 0 ∧
      (computeRSI [(1 : ℚ), 2, 3] 2).getD 2 0 ≤ 100) ∧
    (2 < 2 → (computeRSI [(1 : ℚ), 2, 3] 2).getD 2 0 = 50) ∧
    (2 ≤ 2 → rsiLosses [(1 : ℚ), 2, 3] 2 2 / (2 : ℚ) = 0 →
      (computeRSI [(1 : ℚ), 2, 3] 2).getD 2 0 = 100)) :=
  ⟨⟨by decide, by decide⟩, c6_rsi_invariants [(1 : ℚ), 2, 3] 2 2 (by decide) (by decide)⟩

/-- C9: for every square-root function, every prediction value and
every training history whose loss and validation-loss records are in
lockstep (the training callback, src/gru.js lines 294-300, appends to
both lists together), the confidence is exactly `0.5` when the history
is empty, and always lies in `[0.1, 0.95]`. -/
theorem c9_confidence_bounds (msqrt : ℚ → ℚ) (hist : TrainingHistory)
    (prediction : ℚ) (h : hist.loss.length = hist.valLoss.length) :
    (hist.loss = [] → calculatePredictionConfidence msqrt hist prediction = 1/2) ∧
    1/10 ≤ calculatePredictionConfidence msqrt hist prediction ∧
    calculatePredictionConfidence msqrt hist prediction ≤ 19/20 := by
  unfold calculatePredictionConfidence
  by_cases he : hist.loss.length = 0
  · rw [if_pos he]
    exact ⟨fun _ => rfl, by norm_num, by norm_num⟩
  · rw [if_neg he]
    dsimp only
    refine ⟨fun hempty => absurd (by rw [hempty]; rfl) he, ?_, ?_⟩
    · exact le_min (by norm_num) (le_max_left _ _)
    · exact min_le_left _ _

theorem c9_confidence_bounds_witness :
    ((TrainingHistory.mk [1/100] [1/100]).loss.length =
      (TrainingHistory.mk [1/100] [1/100]).valLoss.length) ∧
    (((TrainingHistory.mk [1/100] [1/100]).loss = [] →
      calculatePredictionConfidence id (TrainingHistory.mk [1/100] [1/100]) 3 = 1/2) ∧
    1/10 ≤ calculatePredictionConfidence id (TrainingHistory.mk [1/100] [1/100]) 3 ∧
    calculatePredictionConfidence id (TrainingHistory.mk [1/100] [1/100]) 3 ≤ 19/20) :=
  ⟨rfl, c9_confidence_bounds id (TrainingHistory.mk [1/100] [1/100]) 3 rfl⟩

theorem calculateReturns_length (mlog : ℚ → ℚ) (prices : List ℚ) :
    (calculateReturns mlog prices).length = prices.length := by
  simp [calculateReturns]

theorem fwdReturn5_length (mlog : ℚ → ℚ) (prices : List ℚ) :
    (fwdReturn5 mlog prices).length = prices.length := by
  simp [fwdReturn5]

theorem rollingStd_length (msqrt : ℚ → ℚ) (returns : List ℚ) (window : ℕ) :
    (rollingStd msqrt returns window).length = returns.length := by
  simp [rollingStd]

theorem sma_length (prices : List ℚ) (window : ℕ) :
    (sma prices window).length = prices.length := by
  simp [sma]

theorem momentum10_length (prices : List ℚ) :
    (momentum10 prices).length = prices.length := by
  simp [momentum10]

theorem computeRSI_length (prices : List ℚ) (window : ℕ) :
    (computeRSI prices window).length = prices.length := by
  simp [computeRSI]

theorem standardizeFeatures_length (msqrt : ℚ → ℚ) (X : List (List ℚ)) :
    (standardizeFeatures msqrt X).length = X.length := by
  unfold standardizeFeatures
  split
  · rfl
  · simp

/-- With every signal nonempty, index `0` already passes the JS
definedness scan of `createFeatures` (all arrays are number-filled
from index 0 on), so the scan stops immediately: `startIdx = 0`. -/
theorem startIdx_eq_zero (mlog msqrt : ℚ → ℚ) (rd : RawData)
    (hd : rd.Date ≠ []) (h1 : rd.SPX ≠ []) (h2 : rd.VIX ≠ []) (h3 : rd.SPY ≠ [])
    (h4 : rd.TNX ≠ []) (h5 : rd.DXY ≠ []) (h6 : rd.SPY_Volume ≠ []) :
    startIdx mlog msqrt rd = 0 := by
  have l1 : 0 < rd.SPX.length := List.length_pos.mpr h1
  have l2 : 0 < rd.VIX.length := List.length_pos.mpr h2
  have l3 : 0 < rd.SPY.length := List.length_pos.mpr h3
  have l4 : 0 < rd.TNX.length := List.length_pos.mpr h4
  have l5 : 0 < rd.DXY.length := List.length_pos.mpr h5
  have l6 : 0 < rd.SPY_Volume.length := List.length_pos.mpr h6
  have hdef : definedAt mlog msqrt rd 0 = true := by
    simp only [definedAt, featureArrays, targetArray, List.all_cons, List.all_nil,
      calculateReturns_length, fwdReturn5_length, rollingStd_length, sma_length,
      momentum10_length, computeRSI_length, Bool.and_true, Bool.and_eq_true,
      decide_eq_true_eq]
    exact ⟨⟨l1, l2, l3, l4, l5, l6, l1, l1, l1, l1, l1, l1⟩, l1⟩
  unfold startIdx
  obtain ⟨n, hn⟩ : ∃ n, rd.Date.length = n + 1 :=
    ⟨rd.Date.length - 1, by have := List.length_pos.mpr hd; omega⟩
  rw [hn, List.range_succ_eq_map, List.find?_cons_of_pos _ hdef]
  rfl

theorem createFeatures_y (mlog msqrt : ℚ → ℚ) (rd : RawData) :
    (createFeatures mlog msqrt rd).y =
      ((List.range rd.Date.length).drop (startIdx mlog msqrt rd)).map
        (fun i => (targetArray mlog rd).getD i 0) := rfl

theorem createFeatures_X (mlog msqrt : ℚ → ℚ) (rd : RawData) :
    (createFeatures mlog msqrt rd).X =
      standardizeFeatures msqrt
        (((List.range rd.Date.length).drop (startIdx mlog msqrt rd)).map
          (fun i => (featureArrays mlog msqrt rd).map (fun arr => arr.getD i 0))) := rfl

/-- A 12-day positive price series used to exercise `createFeatures`:
on it, real JS evaluates every feature and target slot to an actual
number, exactly as the rational embedding does. -/
def demoSeries : List ℚ :=
  [100, 101, 102, 103, 104, 105, 106, 107, 108, 109, 110, 111]

/-- Raw data whose six signals are all the positive 12-day
`demoSeries`, with a 12-entry date index. -/
def demoRawData : RawData :=
  { Date := List.range 12, SPX := demoSeries, VIX := demoSeries,
    SPY := demoSeries, TNX := demoSeries, DXY := demoSeries,
    SPY_Volume := demoSeries }

/-- C1 (refuting the exclusion of undefined-target rows): on the
12-day `demoRawData`, for every choice of the log and sqrt primitives,
`createFeatures` returns all 12 rows — `startIdx` is 0 because the JS
definedness scan only ever sees number-filled slots — and the last
five targets (indices 7..11), whose forward return `ln(S[i+5]/S[i])`
the spec calls undefined and excluded, are emitted as the `fill(0)`
placeholder `0`. -/
theorem c1_createFeatures_keeps_undefined_target_rows (mlog msqrt : ℚ → ℚ) :
    (createFeatures mlog msqrt demoRawData).y.length = 12 ∧
    (createFeatures mlog msqrt demoRawData).X.length = 12 ∧
    ∀ i, 7 ≤ i → i < 12 →
      (createFeatures mlog msqrt demoRawData).y.getD i 1 = 0 := by
  have hne : demoSeries ≠ [] := by simp [demoSeries]
  have hs : startIdx mlog msqrt demoRawData = 0 :=
    startIdx_eq_zero mlog msqrt demoRawData (by simp [demoRawData])
      hne hne hne hne hne hne
  have hdl : demoRawData.Date.length = 12 := by simp [demoRawData]
  refine ⟨?_, ?_, ?_⟩
  · rw [createFeatures_y, hs, hdl]
    simp
  · rw [createFeatures_X, hs, hdl, standardizeFeatures_length]
    simp
  · intro i h7 h12
    rw [createFeatures_y, hs, hdl, List.drop_zero,
      getD_map_range _ _ _ _ (by omega : i < 12)]
    show (targetArray mlog demoRawData).getD i 0 = 0
    unfold targetArray fwdReturn5
    have hsl : demoRawData.SPX.length = 12 := by simp [demoRawData, demoSeries]
    rw [hsl, getD_map_range _ _ _ _ (by omega : i < 12), if_neg (by omega)]
